import Mathlib

/-!
Shallow embedding of `src/plot.py` (vmd-agr-parser): a line-oriented parser
for VMD-generated `.agr` plot files, plus its csv-export, chart-plot and CLI
driver logic.

Modelling conventions:
* The input file is the decoded character stream the Python text-mode file
  object yields, as a `List Char`; `file.seek(n)` is `content.drop n`
  (byte offsets coincide with character offsets for the decoded stream).
* Python `float` values are modelled as exact fractions (`PyFloat`: an `Int`
  numerator over a `Nat` denominator, not normalized); every numeric literal
  appearing in the claims is exactly representable, so no rounding behaviour
  is relevant to the claims. Python float equality is the numeric equality
  `pf_eq` (cross multiplication); the only arithmetic the script performs on
  floats is the scale multiplication, `pf_mul`.
* Python exceptions are modelled with `Except PyError`; `print` diagnostics
  are collected in a `List Msg`.
* Loops over the input stream carry an explicit fuel argument so that every
  definition is structurally recursive (hence kernel-evaluable); each loop
  consumes at least one character per iteration, so top-level wrappers pass
  `content.length + 1` fuel, which is always sufficient.
* `OrderedDict` is an insertion-ordered association list; assigning to an
  existing key updates the value in place (position preserved), matching
  Python dict semantics.
-/

/-- Characters stripped by Python `str.strip()`. -/
def is_space (c : Char) : Bool :=
  c = ' ' || c = '\t' || c = '\n' || c = '\r' || c = Char.ofNat 11 || c = Char.ofNat 12

/-- Characters treated as token separators by `shlex` (its default whitespace). -/
def is_shlex_ws (c : Char) : Bool :=
  c = ' ' || c = '\t' || c = '\r' || c = '\n'

/-- Double-quote character. -/
def dquote_char : Char := Char.ofNat 34

/-- Single-quote character. -/
def squote_char : Char := Char.ofNat 39

/-- Backslash character. -/
def backslash_char : Char := Char.ofNat 92

/-- Reads one line from the stream, Python-file style: the returned line
includes its trailing newline; the empty line signals end of file. -/
def readLine : List Char → List Char × List Char
  | [] => ([], [])
  | c :: cs =>
    if c = '\n' then ([c], cs)
    else
      let p := readLine cs
      (c :: p.1, p.2)

/-- Python `str.strip()`: removes leading and trailing whitespace. -/
def strip (l : List Char) : List Char :=
  ((l.dropWhile is_space).reverse.dropWhile is_space).reverse

/-- Accumulating worker for `split_ws`. -/
def split_ws_go (l : List Char) (cur : List Char) (acc : List String) : List String :=
  match l with
  | [] => (if cur = [] then acc else String.mk cur.reverse :: acc).reverse
  | c :: t =>
    if is_space c then
      if cur = [] then split_ws_go t [] acc
      else split_ws_go t [] (String.mk cur.reverse :: acc)
    else split_ws_go t (c :: cur) acc

/-- Python `str.split()` with no argument: split on whitespace runs, no empty
tokens. -/
def split_ws (l : List Char) : List String := split_ws_go l [] []

/-- Quoting state of the `shlex` scanner. -/
inductive QMode where
  | noQ
  | sQ
  | dQ
deriving DecidableEq

/-- Worker for `shlex_split`: POSIX-mode shell tokenization. Outside quotes,
whitespace separates tokens and a backslash escapes the next character;
single quotes are fully literal; inside double quotes a backslash escapes
only the double quote and the backslash. `none` models the `ValueError`
raised on an unbalanced quote or a trailing escape. -/
def shlex_go (m : QMode) (l : List Char) (cur : List Char) (has_tok : Bool)
    (acc : List String) : Option (List String) :=
  match m, l with
  | .noQ, [] => some (if has_tok then String.mk cur.reverse :: acc else acc).reverse
  | .sQ, [] => none
  | .dQ, [] => none
  | .noQ, c :: t =>
    if is_shlex_ws c then
      if has_tok then shlex_go .noQ t [] false (String.mk cur.reverse :: acc)
      else shlex_go .noQ t [] false acc
    else if c = squote_char then shlex_go .sQ t cur true acc
    else if c = dquote_char then shlex_go .dQ t cur true acc
    else if c = backslash_char then
      match t with
      | [] => none
      | d :: t2 => shlex_go .noQ t2 (d :: cur) true acc
    else shlex_go .noQ t (c :: cur) true acc
  | .sQ, c :: t =>
    if c = squote_char then shlex_go .noQ t cur has_tok acc
    else shlex_go .sQ t (c :: cur) has_tok acc
  | .dQ, c :: t =>
    if c = dquote_char then shlex_go .noQ t cur has_tok acc
    else if c = backslash_char then
      match t with
      | [] => none
      | d :: t2 =>
        if d = dquote_char || d = backslash_char then shlex_go .dQ t2 (d :: cur) has_tok acc
        else shlex_go .dQ t2 (d :: backslash_char :: cur) has_tok acc
    else shlex_go .dQ t (c :: cur) has_tok acc

/-- Python `shlex.split(line)`: shell-style tokenization of a directive line. -/
def shlex_split (l : List Char) : Option (List String) :=
  shlex_go .noQ l [] false []

/-- Python `command.lstrip('@')`: strips every leading at-sign. -/
def lstrip_at (s : String) : String :=
  String.mk (s.data.dropWhile (fun c => c = '@'))

/-- Python `command.startswith('s')` for the single-character prefix. -/
def starts_with_s (s : String) : Bool :=
  match s.data with
  | [] => false
  | c :: _ => c = 's'

/-- Value of a list of decimal digit characters. -/
def digits_val (l : List Char) : Nat :=
  l.foldl (fun a c => a * 10 + (c.toNat - 48)) 0

/-- Exact-fraction model of a Python `float`: numerator over positive
denominator, not normalized. All values the script constructs have a
power-of-ten denominator. -/
structure PyFloat where
  num : Int
  den : Nat
deriving DecidableEq

/-- Numeric value of an integer as a `PyFloat`. -/
def pf (n : Int) : PyFloat := { num := n, den := 1 }

/-- Python `==` on floats: numeric equality of the exact fractions. -/
def pf_eq (a b : PyFloat) : Bool := a.num * (b.den : Int) = b.num * (a.den : Int)

/-- Python `*` on floats: exact multiplication of the fractions. -/
def pf_mul (a b : PyFloat) : PyFloat := { num := a.num * b.num, den := a.den * b.den }

/-- Python `float(token)` on the characters of a token, modelled as an exact
rational: optional sign, integer part, optional fractional part, optional
decimal exponent. `inf`/`nan` and digit underscores are not modelled (no
claim involves them); rounding to binary floating point is abstracted away. -/
def parse_float_chars (l : List Char) : Option PyFloat :=
  let sp : Int × List Char :=
    match l with
    | '+' :: t => (1, t)
    | '-' :: t => (-1, t)
    | t => (1, t)
  let sign := sp.1
  let l1 := sp.2
  let ipart := l1.takeWhile Char.isDigit
  let l2 := l1.dropWhile Char.isDigit
  let fp : List Char × List Char :=
    match l2 with
    | '.' :: t => (t.takeWhile Char.isDigit, t.dropWhile Char.isDigit)
    | t => ([], t)
  let fpart := fp.1
  let l3 := fp.2
  if ipart = [] && fpart = [] then none
  else
    let base_num : Int := sign * (digits_val ipart * 10 ^ fpart.length + digits_val fpart)
    let base_den : Nat := 10 ^ fpart.length
    match l3 with
    | [] => some { num := base_num, den := base_den }
    | e :: t =>
      if e = 'e' || e = 'E' then
        let ep : Bool × List Char :=
          match t with
          | '+' :: t2 => (false, t2)
          | '-' :: t2 => (true, t2)
          | t2 => (false, t2)
        let ed := ep.2.takeWhile Char.isDigit
        let t3 := ep.2.dropWhile Char.isDigit
        if ed = [] || t3 ≠ [] then none
        else if ep.1 then some { num := base_num, den := base_den * 10 ^ digits_val ed }
        else some { num := base_num * (10 : Int) ^ digits_val ed, den := base_den }
      else none

/-- Python `float(token)` on a token string. -/
def parse_float (s : String) : Option PyFloat := parse_float_chars s.data

/-- Diagnostic messages printed by the script. -/
inductive Msg where
  | unrecognizedCommand (cmd : String)
  | duplicateX (x : PyFloat)
  | matplotlibMissing
  | labelCountMismatch
  | plotGenerationFailed
  | exported (count : Nat) (filename : String)
deriving DecidableEq

/-- Python exceptions that the script can raise (all fatal). -/
inductive PyError where
  | valueError
  | indexError
  | assertionError
deriving DecidableEq

/-- Layer: one named data series; `data` models the `OrderedDict` of x to y. -/
structure Layer where
  name : String
  data : List (PyFloat × PyFloat)
deriving DecidableEq

/-- State built by the header phase: title, declared layers, printed messages. -/
structure ConfigSt where
  title : String
  layers : List Layer
  msgs : List Msg
deriving DecidableEq

/-- Parsed document: title and the full ordered list of series. -/
structure PlotDoc where
  title : String
  layers : List Layer
deriving DecidableEq

/-- Handles the `type`-directive check and the unrecognized-directive fallback
(the tail of the `elif` chain in `parse_plot_configs`). -/
def type_or_unrecognized (st : ConfigSt) (command : String) (values : List String) :
    Except PyError ConfigSt :=
  if command = "type" then
    match values with
    | [] => .error .indexError
    | v :: _ => if v = "xy" then .ok st else .error .assertionError
  else .ok { st with msgs := st.msgs ++ [.unrecognizedCommand command] }

/-- Dispatch on a tokenized header directive, mirroring the `if`/`elif` chain
in `parse_plot_configs` (including the `IndexError`s raised by `values[0]` /
`values[1]` on too-short token lists, and the short-circuit evaluation of
`command.startswith('s') and values[0] == 'legend'`). -/
def process_directive (st : ConfigSt) (command : String) (values : List String) :
    Except PyError ConfigSt :=
  if command = "title" then
    match values with
    | [] => .error .indexError
    | v :: _ => .ok { st with title := v }
  else if starts_with_s command then
    match values with
    | [] => .error .indexError
    | v0 :: vrest =>
      if v0 = "legend" then
        match vrest with
        | [] => .error .indexError
        | v1 :: _ => .ok { st with layers := st.layers ++ [{ name := v1, data := [] }] }
      else type_or_unrecognized st command values
  else type_or_unrecognized st command values

/-- Processes one raw header line: strip, shlex-tokenize (a failure is the
`ValueError` of `shlex` or of the `command, *values` unpacking), strip the
at-signs off the command, dispatch. -/
def process_config_line (st : ConfigSt) (line : List Char) : Except PyError ConfigSt :=
  match shlex_split (strip line) with
  | none => .error .valueError
  | some [] => .error .valueError
  | some (command :: values) => process_directive st (lstrip_at command) values

/-- Header-phase loop of `parse_plot_configs`: consume lines while they begin
with the directive marker, tracking the character offset of the first
unconsumed-by-offset line in `position`; the first non-directive line (or end
of file) ends the loop and `position` is the seek target. Fuel 0 acts like
end of file and is never reached from the top-level wrapper. -/
def parse_plot_configs_go (fuel : Nat) (remaining : List Char) (position : Nat)
    (st : ConfigSt) : Except PyError (ConfigSt × Nat) :=
  match fuel with
  | 0 => .ok (st, position)
  | fuel + 1 =>
    let line := (readLine remaining).1
    let rest := (readLine remaining).2
    if line = [] then .ok (st, position)
    else if line.head? = some '@' then
      match process_config_line st line with
      | .error e => .error e
      | .ok st2 => parse_plot_configs_go fuel rest (position + line.length) st2
    else .ok (st, position)

/-- `VmdAgrPlot.parse_plot_configs` applied to the whole stream: returns the
header state and the file offset the stream is seeked to for the data phase. -/
def parse_plot_configs (content : List Char) : Except PyError (ConfigSt × Nat) :=
  parse_plot_configs_go (content.length + 1) content 0 { title := "", layers := [], msgs := [] }

/-- Truthiness test of `self.restrict_to` combined with the membership check:
Python `not self.restrict_to or layer.name in self.restrict_to` (a `None`
or empty restriction selects everything). -/
def chosen_pred (restrict_to : Option (List String)) (name : String) : Bool :=
  match restrict_to with
  | none => true
  | some r => r.isEmpty || r.any (fun m => decide (m = name))

/-- `VmdAgrPlot.chosen_layers`: the declared layers filtered by the
restriction, in declaration order. -/
def chosen_layers (layers : List Layer) (restrict_to : Option (List String)) : List Layer :=
  layers.filter (fun l => chosen_pred restrict_to l.name)

/-- Python `layer.data[x] = y` on the OrderedDict: updates an existing key in
place, else appends. -/
def od_set (data : List (PyFloat × PyFloat)) (x y : PyFloat) : List (PyFloat × PyFloat) :=
  match data with
  | [] => [(x, y)]
  | (a, b) :: t => if pf_eq a x then (a, y) :: t else (a, b) :: od_set t x y

/-- Inner loop of `parse_coordinates` for one layer: consume lines until the
block terminator `&` (or end of file), parsing each line as exactly two
floats and inserting them, warning on a duplicate x. Fuel 0 acts like end of
file and is never reached from `parse_block`. -/
def parse_block_go (fuel : Nat) (remaining : List Char) (data : List (PyFloat × PyFloat))
    (msgs : List Msg) : Except PyError (List (PyFloat × PyFloat) × List Char × List Msg) :=
  match fuel with
  | 0 => .ok (data, remaining, msgs)
  | fuel + 1 =>
    let line := (readLine remaining).1
    let rest := (readLine remaining).2
    if line = [] then .ok (data, rest, msgs)
    else
      let s := strip line
      if s = ['&'] then .ok (data, rest, msgs)
      else
        match (split_ws s).mapM parse_float with
        | none => .error .valueError
        | some nums =>
          match nums with
          | [x, y] =>
            let msgs2 := if data.any (fun p => pf_eq p.1 x) then msgs ++ [.duplicateX x] else msgs
            parse_block_go fuel rest (od_set data x y) msgs2
          | _ => .error .valueError

/-- One block consumption with always-sufficient fuel. -/
def parse_block (remaining : List Char) (data : List (PyFloat × PyFloat)) (msgs : List Msg) :
    Except PyError (List (PyFloat × PyFloat) × List Char × List Msg) :=
  parse_block_go (remaining.length + 1) remaining data msgs

/-- `VmdAgrPlot.parse_coordinates`: walk the declared layers in order; a layer
in the active selection consumes the next block from the stream (mutating its
`data`), a layer outside the selection is left untouched and consumes
nothing. -/
def parse_coords_go (remaining : List Char) (layers : List Layer)
    (restrict_to : Option (List String)) (msgs : List Msg) :
    Except PyError (List Layer × List Msg) :=
  match layers with
  | [] => .ok ([], msgs)
  | layer :: t =>
    if chosen_pred restrict_to layer.name then
      match parse_block remaining layer.data msgs with
      | .error e => .error e
      | .ok (d, rest, msgs2) =>
        match parse_coords_go rest t restrict_to msgs2 with
        | .error e => .error e
        | .ok (t2, msgs3) => .ok ({ layer with data := d } :: t2, msgs3)
    else
      match parse_coords_go remaining t restrict_to msgs with
      | .error e => .error e
      | .ok (t2, msgs2) => .ok (layer :: t2, msgs2)

/-- `VmdAgrPlot.load`: header phase, seek back to the boundary offset, data
phase. -/
def load (content : List Char) (restrict_to : Option (List String)) :
    Except PyError (PlotDoc × List Msg) :=
  match parse_plot_configs content with
  | .error e => .error e
  | .ok (st, pos) =>
    match parse_coords_go (content.drop pos) st.layers restrict_to st.msgs with
    | .error e => .error e
    | .ok (layers, msgs) => .ok ({ title := st.title, layers := layers }, msgs)

/-- Header row of the csv export: two columns per chosen layer. -/
def csv_headers (chosen : List Layer) : List String :=
  chosen.flatMap (fun l => [l.name ++ ".x", l.name ++ ".y"])

/-- Cells of one csv data row, as `csv.DictWriter.writerow` renders the
per-point dictionary `{name.x: x, name.y: y}` under the header list: each
header column receives the dictionary value for that column name, or an
empty cell. -/
def row_cells (headers : List String) (name : String) (p : PyFloat × PyFloat) : List (Option PyFloat) :=
  headers.map (fun h =>
    if h = name ++ ".x" then some p.1
    else if h = name ++ ".y" then some p.2
    else none)

/-- Structured content of the csv file written by `to_csv`. -/
structure CsvOut where
  headers : List String
  rows : List (List (Option PyFloat))
deriving DecidableEq

/-- `VmdAgrPlot.to_csv`: one row per point, chosen layers processed in order,
points in insertion order; only the owning layer's two columns are populated
in each row. -/
def to_csv (layers : List Layer) (restrict_to : Option (List String)) : CsvOut :=
  let chosen := chosen_layers layers restrict_to
  let headers := csv_headers chosen
  { headers := headers
    rows := chosen.flatMap (fun l => l.data.map (fun p => row_cells headers l.name p)) }

/-- Modelled from the spec: re-parsing one series back out of the csv grid.
Reads the numeric column pair of the `i`-th series (columns `2*i` and
`2*i+1`) of one row; rows in which this series' columns are unpopulated are
skipped by the surrounding `filterMap`. -/
def pair_at (i : Nat) (row : List (Option PyFloat)) : Option (PyFloat × PyFloat) :=
  match (row[2 * i]?).join, (row[2 * i + 1]?).join with
  | some x, some y => some (x, y)
  | _, _ => none

/-- Modelled from the spec: the (x, y) pairs recovered for the `i`-th series
by re-parsing the numeric columns of the exported csv. -/
def csv_column_pairs (c : CsvOut) (i : Nat) : List (PyFloat × PyFloat) :=
  c.rows.filterMap (pair_at i)

/-- One `plt.plot(xs, ys, label=...)` call. -/
structure PlotCall where
  xs : List PyFloat
  ys : List PyFloat
  label : String
deriving DecidableEq

/-- The matplotlib figure state assembled by a successful `plot()`. -/
structure PlotResult where
  calls : List PlotCall
  title : String
  axes : Option (String × String)
  legend_anchor : Option (PyFloat × PyFloat)
deriving DecidableEq

/-- Python truthiness of the `labels` argument (`if labels:`). -/
def truthy_labels : Option (List String) → Bool
  | none => false
  | some l => !l.isEmpty

/-- `VmdAgrPlot.plot`: fails (returning `none`, modelling `False`) when
matplotlib is unavailable or when override labels are supplied with a count
different from the chosen-layer count; otherwise plots each chosen layer with
the x/y scale factors applied and the override label (if any) or the layer
name. The first component collects the printed diagnostics. -/
def plot_method (mpl_available : Bool) (layers : List Layer)
    (restrict_to : Option (List String)) (title : String) (scale : PyFloat × PyFloat)
    (axes_labels : Option (String × String)) (legend_pos : Option (PyFloat × PyFloat))
    (labels : Option (List String)) : List Msg × Option PlotResult :=
  if !mpl_available then ([.matplotlibMissing], none)
  else
    let chosen := chosen_layers layers restrict_to
    if truthy_labels labels && !((labels.getD []).length = chosen.length) then
      ([.labelCountMismatch], none)
    else
      ([], some
        { calls := chosen.enum.map (fun q =>
            { xs := q.2.data.map (fun p => pf_mul scale.1 p.1)
              ys := q.2.data.map (fun p => pf_mul scale.2 p.2)
              label := if truthy_labels labels then (labels.getD []).getD q.1 q.2.name
                       else q.2.name })
          title := title
          axes := axes_labels
          legend_anchor := legend_pos })

/-- Export formats accepted by `--export`. -/
inductive ExportFormat where
  | csv
  | svg
  | png
  | jpg
deriving DecidableEq

/-- File extension of an export format. -/
def format_ext : ExportFormat → String
  | .csv => "csv"
  | .svg => "svg"
  | .png => "png"
  | .jpg => "jpg"

/-- Parsed command-line arguments of `main` (defaults as in
`create_argument_parser`). -/
structure Args where
  do_not_plot : Bool
  title : Option String
  axis_x : String
  axis_y : String
  restrict_to : Option (List String)
  export_fmt : Option ExportFormat
  scale : PyFloat × PyFloat
  legend_position : PyFloat × PyFloat
  labels : Option (List String)
deriving DecidableEq

/-- Observable outcome of a `main` run: messages printed, csv file written
(if any), image file saved (if any), and whether the plot window was shown. -/
structure MainResult where
  printed : List Msg
  csv_written : Option (String × CsvOut)
  image_saved : Option String
  shown : Bool
deriving DecidableEq

/-- Python truthiness of the `--title` override (`if args.title:`). -/
def truthy_str : Option String → Bool
  | none => false
  | some s => match s.data with
    | [] => false
    | _ :: _ => true

/-- `os.path.basename`: the part of the path after the last slash. -/
def basename (s : String) : String :=
  String.mk ((s.data.reverse.takeWhile (fun c => !(c = '/'))).reverse)

/-- The `main` driver: parse the file, optionally override the title, attempt
plot generation whenever plotting is not skipped or an export was requested,
abort (printing a diagnostic) if plot generation failed, then export and/or
show. -/
def main_model (mpl_available : Bool) (input_name : String) (content : List Char)
    (args : Args) : Except PyError MainResult :=
  match load content args.restrict_to with
  | .error e => .error e
  | .ok (doc, msgs) =>
    let title := if truthy_str args.title then args.title.getD "" else doc.title
    if !args.do_not_plot || args.export_fmt.isSome then
      let pr := plot_method mpl_available doc.layers args.restrict_to title args.scale
        (some (args.axis_x, args.axis_y)) (some args.legend_position) args.labels
      match pr.2 with
      | none =>
        .ok { printed := msgs ++ pr.1 ++ [.plotGenerationFailed]
              csv_written := none, image_saved := none, shown := false }
      | some _ =>
        let layers_count := (chosen_layers doc.layers args.restrict_to).length
        match args.export_fmt with
        | some fmt =>
          let export_filename := basename input_name ++ "." ++ format_ext fmt
          if fmt = .csv then
            .ok { printed := msgs ++ pr.1 ++ [.exported layers_count export_filename]
                  csv_written := some (export_filename, to_csv doc.layers args.restrict_to)
                  image_saved := none, shown := !args.do_not_plot }
          else
            .ok { printed := msgs ++ pr.1 ++ [.exported layers_count export_filename]
                  csv_written := none, image_saved := some export_filename
                  shown := !args.do_not_plot }
        | none =>
          .ok { printed := msgs ++ pr.1, csv_written := none, image_saved := none
                shown := !args.do_not_plot }
    else
      .ok { printed := msgs, csv_written := none, image_saved := none, shown := false }

/-- Modelled from the spec: the remainder of the stream after the maximal
leading run of directive-marker lines (the boundary line onwards). Used as
the specification-side description of where the header phase must leave the
stream cursor. -/
def spec_header_rest_go (fuel : Nat) (remaining : List Char) : List Char :=
  match fuel with
  | 0 => remaining
  | fuel + 1 =>
    let line := (readLine remaining).1
    if line = [] then remaining
    else if line.head? = some '@' then spec_header_rest_go fuel (readLine remaining).2
    else remaining

/-- Modelled from the spec: the stream remainder at the header/data boundary. -/
def spec_header_rest (content : List Char) : List Char :=
  spec_header_rest_go (content.length + 1) content

/-- Modelled from the spec: the legend name declared by one header line, if
that line is a legend directive (`s<N> legend <string>`). -/
def legend_of_line (line : List Char) : List String :=
  match shlex_split (strip line) with
  | some (command :: v0 :: v1 :: _) =>
    if starts_with_s (lstrip_at command) && v0 = "legend" then [v1] else []
  | _ => []

/-- Modelled from the spec: the legend names declared in the header, in
encounter order, scanning the maximal leading run of directive lines. -/
def spec_legend_names_go (fuel : Nat) (remaining : List Char) : List String :=
  match fuel with
  | 0 => []
  | fuel + 1 =>
    let line := (readLine remaining).1
    if line = [] then []
    else if line.head? = some '@' then
      legend_of_line line ++ spec_legend_names_go fuel (readLine remaining).2
    else []

/-- Modelled from the spec: legend names of the whole header. -/
def spec_legend_names (content : List Char) : List String :=
  spec_legend_names_go (content.length + 1) content

deriving instance DecidableEq for Except

/-- Sample file with three declared series and three data blocks. -/
def file_abc : List Char :=
  ("@s0 legend \"A\"\n@s1 legend \"B\"\n@s2 legend \"C\"\n1 10\n&\n2 20\n&\n3 30\n&\n").data

/-- Sample file with one series and a duplicated x value in its block. -/
def file_dup_x : List Char :=
  ("@s0 legend \"v\"\n0 1\n0 2\n&\n").data

/-- Sample file with one series and one point. -/
def file_one : List Char :=
  ("@s0 legend \"A\"\n1 2\n&\n").data

/-- Sample file with a title directive and one data block. -/
def file_title : List Char :=
  ("@title \"t\"\n1 2\n&\n").data

/-- Sample file declaring two series with the same legend name. -/
def file_same_name : List Char :=
  ("@s0 legend \"a\"\n@s1 legend \"a\"\n1 10\n&\n2 20\n&\n").data

/-- Document parsed from `file_same_name`. -/
def doc_same_name : PlotDoc :=
  { title := ""
    layers := [{ name := "a", data := [(pf 1, pf 10)] },
               { name := "a", data := [(pf 2, pf 20)] }] }

/-- Document parsed from `file_abc` with no restriction. -/
def doc_abc : PlotDoc :=
  { title := ""
    layers := [{ name := "A", data := [(pf 1, pf 10)] },
               { name := "B", data := [(pf 2, pf 20)] },
               { name := "C", data := [(pf 3, pf 30)] }] }

/-- Command-line arguments with the parser defaults. -/
def default_args : Args :=
  { do_not_plot := false, title := none, axis_x := "frame", axis_y := "y",
    restrict_to := none, export_fmt := none, scale := (pf 1, pf 1),
    legend_position := (pf 1, pf 1), labels := none }

/-- Arguments supplying two override labels (with three series this is a
count mismatch). -/
def args_two_labels : Args := { default_args with labels := some ["a", "b"] }

/-- Arguments requesting a csv export. -/
def args_csv : Args := { default_args with export_fmt := some .csv }

/-- One layer holding the single point (4, 5). -/
def layers_pt45 : List Layer := [{ name := "v", data := [(pf 4, pf 5)] }]

theorem readLine_append (l : List Char) : (readLine l).1 ++ (readLine l).2 = l := by
  induction l with
  | nil => rfl
  | cons c cs ih =>
    unfold readLine
    by_cases h : c = '\n'
    · simp [h]
    · simp [h, ih]

/-- C9: an empty restriction set behaves exactly like no restriction: every
declared series is selected. -/
theorem empty_restriction_selects_all (layers : List Layer) :
    chosen_layers layers (some []) = layers ∧ chosen_layers layers none = layers := by
  constructor <;> simp [chosen_layers, chosen_pred]

/-- C10: when the stream is exhausted before the blocks of the remaining
selected series, the data phase completes without error and leaves every
remaining layer's point map unchanged (hence empty, since the header phase
creates every layer with an empty map). -/
theorem eof_remaining_series_empty (layers : List Layer)
    (restrict_to : Option (List String)) (msgs : List Msg) :
    parse_coords_go [] layers restrict_to msgs = .ok (layers, msgs) := by
  induction layers generalizing msgs with
  | nil => rfl
  | cons l t ih =>
    unfold parse_coords_go
    by_cases h : chosen_pred restrict_to l.name
    · simp [h, parse_block, parse_block_go, readLine, ih]
    · simp [h, ih]

/-- C1: counter-evidence for block/series alignment under a restriction. With
series A, B, C declared and the restriction set {B}, the data phase consumes
exactly one block, but that block is the FIRST block of the file (A's points
(1, 10)), which is assigned to B; B's own second block (2, 20) is never
reached and nothing is skipped. -/
theorem restrict_misassigns_first_block :
    load file_abc (some ["B"]) =
      .ok ({ title := "",
             layers := [{ name := "A", data := [] },
                        { name := "B", data := [(pf 1, pf 10)] },
                        { name := "C", data := [] }] }, []) := by decide

/-- C2: counter-evidence for csv export with matplotlib missing. Even with
`--do_not_plot --export csv`, `main` attempts plot generation (because an
export was requested), the plot attempt fails, and `main` returns before
writing the csv file; the svg export fails the same way with no image
produced. -/
theorem missing_matplotlib_blocks_csv_export :
    main_model false "f.agr" file_one
      { default_args with do_not_plot := true, export_fmt := some .csv } =
      .ok { printed := [.matplotlibMissing, .plotGenerationFailed],
            csv_written := none, image_saved := none, shown := false }
    ∧ main_model false "f.agr" file_one
      { default_args with do_not_plot := true, export_fmt := some .svg } =
      .ok { printed := [.matplotlibMissing, .plotGenerationFailed],
            csv_written := none, image_saved := none, shown := false } := by decide

/-- C4: a data block `0 1`, `0 2`, `&` yields a series with exactly one
point, x = 0 mapped to y = 2 (the later occurrence overwrites the earlier
one in place), a duplicate-x warning is logged, and parsing completes
without error. -/
theorem duplicate_x_last_write_wins :
    load file_dup_x none =
      .ok ({ title := "", layers := [{ name := "v", data := [(pf 0, pf 2)] }] },
           [.duplicateX (pf 0)]) := by decide

theorem readLine_drop (l : List Char) : l.drop (readLine l).1.length = (readLine l).2 := by
  have h := List.drop_left (readLine l).1 (readLine l).2
  rwa [readLine_append] at h

theorem seek_go (fuel : Nat) :
    ∀ (remaining : List Char) (position : Nat) (st st' : ConfigSt) (pos : Nat)
      (content : List Char),
      parse_plot_configs_go fuel remaining position st = .ok (st', pos) →
      content.drop position = remaining →
      content.drop pos = spec_header_rest_go fuel remaining := by
  induction fuel with
  | zero =>
    intro remaining position st st' pos content h hinv
    simp only [parse_plot_configs_go, Except.ok.injEq, Prod.mk.injEq] at h
    rw [← h.2, hinv]
    rfl
  | succ n ih =>
    intro remaining position st st' pos content h hinv
    simp only [parse_plot_configs_go] at h
    simp only [spec_header_rest_go]
    by_cases h1 : (readLine remaining).1 = []
    · simp only [h1, if_true, Except.ok.injEq, Prod.mk.injEq] at h ⊢
      rw [← h.2, hinv]
    · simp only [h1, if_false] at h ⊢
      by_cases h2 : (readLine remaining).1.head? = some '@'
      · simp only [h2, if_true] at h ⊢
        cases hp : process_config_line st (readLine remaining).1 with
        | error e => rw [hp] at h; exact absurd h (by simp)
        | ok st2 =>
          rw [hp] at h
          refine ih (readLine remaining).2 (position + (readLine remaining).1.length)
            st2 st' pos content h ?_
          rw [← List.drop_drop, hinv, readLine_drop]
      · simp only [h2, if_false, Except.ok.injEq, Prod.mk.injEq] at h ⊢
        rw [← h.2, hinv]

/-- C3: the header phase consumes exactly the maximal leading run of
directive-marker lines: the offset `parse_plot_configs` seeks back to is the
start of the first line that does not begin with the marker, so the data
phase re-reads exactly that boundary line first. -/
theorem header_boundary_reread (content : List Char) (st : ConfigSt) (pos : Nat)
    (h : parse_plot_configs content = .ok (st, pos)) :
    content.drop pos = spec_header_rest content ∧
    (readLine (content.drop pos)).1 = (readLine (spec_header_rest content)).1 := by
  have h1 : content.drop pos = spec_header_rest content :=
    seek_go (content.length + 1) content 0
      { title := "", layers := [], msgs := [] } st pos content h (by simp)
  exact ⟨h1, by rw [h1]⟩

/-- Witness: on a concrete file the header phase ends at offset 11, the start
of the first data line, which the data phase re-reads. -/
theorem header_boundary_reread_witness :
    parse_plot_configs file_title = .ok ({ title := "t", layers := [], msgs := [] }, 11) ∧
    (file_title.drop 11 = spec_header_rest file_title ∧
     (readLine (file_title.drop 11)).1 = (readLine (spec_header_rest file_title)).1) :=
  ⟨by decide,
   header_boundary_reread file_title { title := "t", layers := [], msgs := [] } 11 (by decide)⟩

theorem type_or_unrecognized_layers (st : ConfigSt) (command : String)
    (values : List String) (st2 : ConfigSt)
    (h : type_or_unrecognized st command values = .ok st2) : st2.layers = st.layers := by
  unfold type_or_unrecognized at h
  by_cases hc : command = "type"
  · simp only [hc, if_true] at h
    cases values with
    | nil => exact absurd h (by simp)
    | cons v vs =>
      by_cases hv : v = "xy"
      · simp only [hv, if_true] at h
        cases h
        rfl
      · simp only [hv, if_false] at h
        exact absurd h (by simp)
  · simp only [hc, if_false] at h
    cases h
    rfl

theorem process_directive_layers (st : ConfigSt) (command : String)
    (values : List String) (st2 : ConfigSt)
    (h : process_directive st command values = .ok st2) :
    st2.layers = st.layers ++
      (match values with
        | v0 :: v1 :: _ =>
          if starts_with_s command && v0 = "legend" then [{ name := v1, data := [] }] else []
        | _ => []) := by
  unfold process_directive at h
  by_cases ht : command = "title"
  · simp only [ht, if_true] at h
    cases values with
    | nil => exact absurd h (by simp)
    | cons v vs =>
      cases h
      cases vs with
      | nil => simp
      | cons v1 vr => simp [starts_with_s, ht]
  · simp only [ht, if_false] at h
    by_cases hs : starts_with_s command
    · simp only [hs, if_true] at h
      cases values with
      | nil => exact absurd h (by simp)
      | cons v0 vs =>
        by_cases hv : v0 = "legend"
        · simp only [hv, if_true] at h
          cases vs with
          | nil => exact absurd h (by simp)
          | cons v1 vr =>
            cases h
            simp [hs, hv]
        · simp only [hv, if_false] at h
          have := type_or_unrecognized_layers st command (v0 :: vs) st2 h
          cases vs with
          | nil => simpa using this
          | cons v1 vr => simpa [hv] using this
    · by_cases hs2 : starts_with_s command = true
      · exact absurd hs2 hs
      · simp only [hs2, if_false] at h
        have := type_or_unrecognized_layers st command values st2 h
        cases values with
        | nil => simpa using this
        | cons v0 vs =>
          cases vs with
          | nil => simpa using this
          | cons v1 vr => simpa [hs2] using this

theorem process_config_line_layers (st : ConfigSt) (line : List Char) (st2 : ConfigSt)
    (h : process_config_line st line = .ok st2) :
    st2.layers = st.layers ++ (legend_of_line line).map (fun n => { name := n, data := [] }) := by
  unfold process_config_line at h
  unfold legend_of_line
  cases hs : shlex_split (strip line) with
  | none => rw [hs] at h; exact absurd h (by simp)
  | some toks =>
    rw [hs] at h
    cases toks with
    | nil => exact absurd h (by simp)
    | cons c values =>
      have := process_directive_layers st (lstrip_at c) values st2 h
      cases values with
      | nil => simpa using this
      | cons v0 vs =>
        cases vs with
        | nil => simpa using this
        | cons v1 vr =>
          by_cases hc : starts_with_s (lstrip_at c) && v0 = "legend"
          · simpa [hc] using this
          · simpa [hc] using this

theorem config_layers_go (fuel : Nat) :
    ∀ (remaining : List Char) (position : Nat) (st st' : ConfigSt) (pos : Nat),
      parse_plot_configs_go fuel remaining position st = .ok (st', pos) →
      st'.layers = st.layers ++
        (spec_legend_names_go fuel remaining).map (fun n => { name := n, data := [] }) := by
  induction fuel with
  | zero =>
    intro remaining position st st' pos h
    simp only [parse_plot_configs_go, Except.ok.injEq, Prod.mk.injEq] at h
    simp [spec_legend_names_go, ← h.1]
  | succ n ih =>
    intro remaining position st st' pos h
    simp only [parse_plot_configs_go] at h
    simp only [spec_legend_names_go]
    by_cases h1 : (readLine remaining).1 = []
    · simp only [h1, if_true, Except.ok.injEq, Prod.mk.injEq] at h ⊢
      simp [← h.1]
    · simp only [h1, if_false] at h ⊢
      by_cases h2 : (readLine remaining).1.head? = some '@'
      · simp only [h2, if_true] at h ⊢
        cases hp : process_config_line st (readLine remaining).1 with
        | error e => rw [hp] at h; exact absurd h (by simp)
        | ok st2 =>
          rw [hp] at h
          have hl := process_config_line_layers st (readLine remaining).1 st2 hp
          have hrec := ih (readLine remaining).2 (position + (readLine remaining).1.length)
            st2 st' pos h
          rw [hrec, hl, List.map_append, List.append_assoc]
      · simp only [h2, if_false, Except.ok.injEq, Prod.mk.injEq] at h ⊢
        simp [← h.1]

theorem coords_names (layers : List Layer) :
    ∀ (remaining : List Char) (restrict_to : Option (List String)) (msgs : List Msg)
      (layers' : List Layer) (msgs' : List Msg),
      parse_coords_go remaining layers restrict_to msgs = .ok (layers', msgs') →
      layers'.map Layer.name = layers.map Layer.name := by
  induction layers with
  | nil =>
    intro remaining restrict_to msgs layers' msgs' h
    simp only [parse_coords_go, Except.ok.injEq, Prod.mk.injEq] at h
    simp [← h.1]
  | cons l t ih =>
    intro remaining restrict_to msgs layers' msgs' h
    simp only [parse_coords_go] at h
    by_cases hc : chosen_pred restrict_to l.name
    · rw [if_pos hc] at h
      cases hb : parse_block remaining l.data msgs with
      | error e => rw [hb] at h; exact absurd h (by simp)
      | ok res =>
        rw [hb] at h
        obtain ⟨d, rest, msgs2⟩ := res
        dsimp only at h
        cases hr : parse_coords_go rest t restrict_to msgs2 with
        | error e => rw [hr] at h; exact absurd h (by simp)
        | ok res2 =>
          rw [hr] at h
          obtain ⟨t2, msgs3⟩ := res2
          simp only [Except.ok.injEq, Prod.mk.injEq] at h
          rw [← h.1]
          simp [ih rest restrict_to msgs2 t2 msgs3 hr]
    · rw [if_neg hc] at h
      cases hr : parse_coords_go remaining t restrict_to msgs with
      | error e => rw [hr] at h; exact absurd h (by simp)
      | ok res2 =>
        rw [hr] at h
        obtain ⟨t2, msgs2⟩ := res2
        dsimp only at h
        simp only [Except.ok.injEq, Prod.mk.injEq] at h
        rw [← h.1]
        simp [ih remaining restrict_to msgs t2 msgs2 hr]

/-- C5: for every successfully parsed input, the parsed series list matches
the legend directives of the header exactly: same count, same order, and
each series named by the string of its legend directive. -/
theorem series_match_legend_directives (content : List Char)
    (restrict_to : Option (List String)) (doc : PlotDoc) (msgs : List Msg)
    (h : load content restrict_to = .ok (doc, msgs)) :
    doc.layers.map Layer.name = spec_legend_names content ∧
    doc.layers.length = (spec_legend_names content).length := by
  unfold load at h
  cases hp : parse_plot_configs content with
  | error e => rw [hp] at h; exact absurd h (by simp)
  | ok stpos =>
    rw [hp] at h
    obtain ⟨st, pos⟩ := stpos
    dsimp only at h
    cases hc : parse_coords_go (content.drop pos) st.layers restrict_to st.msgs with
    | error e => rw [hc] at h; exact absurd h (by simp)
    | ok lm =>
      rw [hc] at h
      obtain ⟨layers, msgs2⟩ := lm
      dsimp only at h
      simp only [Except.ok.injEq, Prod.mk.injEq] at h
      have hnames := coords_names st.layers (content.drop pos) restrict_to st.msgs
        layers msgs2 hc
      have hcfg := config_layers_go (content.length + 1) content 0
        { title := "", layers := [], msgs := [] } st pos hp
      have hdoc : doc.layers = layers := by rw [← h.1]
      have hmain : doc.layers.map Layer.name = spec_legend_names content := by
        rw [hdoc, hnames, hcfg]
        simp [spec_legend_names, List.map_map, Function.comp_def]
      refine ⟨hmain, ?_⟩
      rw [← hmain, List.length_map]

/-- Witness: on a concrete three-series file the parsed series names equal
the three legend strings, in order. -/
theorem series_match_legend_directives_witness :
    load file_abc none = .ok (doc_abc, []) ∧
    (doc_abc.layers.map Layer.name = spec_legend_names file_abc ∧
     doc_abc.layers.length = (spec_legend_names file_abc).length) :=
  ⟨by decide, series_match_legend_directives file_abc none doc_abc [] (by decide)⟩

theorem enum_map_snd_comp {α β : Type} (l : List α) (f : α → β) :
    l.enum.map (fun q => f q.2) = l.map f := by
  rw [show (fun q : Nat × α => f q.2) = f ∘ Prod.snd from rfl, ← List.map_map,
    List.enum_map_snd]

theorem plot_mismatch_aux (layers : List Layer) (restrict_to : Option (List String))
    (title : String) (scale : PyFloat × PyFloat) (al : Option (String × String))
    (lp : Option (PyFloat × PyFloat)) (labels : List String)
    (hne : labels ≠ [])
    (hmm : labels.length ≠ (chosen_layers layers restrict_to).length) :
    plot_method true layers restrict_to title scale al lp (some labels) =
      ([.labelCountMismatch], none) := by
  unfold plot_method
  have ht : truthy_labels (some labels) = true := by
    simp [truthy_labels, List.isEmpty_iff, hne]
  have hcond : (truthy_labels (some labels) &&
      !((some labels : Option (List String)).getD []).length =
        (chosen_layers layers restrict_to).length) = true := by
    simp [ht, Option.getD, hmm]
  simp [hcond]
  exact ⟨ht, hmm⟩

/-- C8: when override labels are supplied and their count differs from the
number of selected series, `plot` prints a diagnostic and returns a failure
value (not an unhandled fault), `main` prints its own diagnostic and stops,
and no image (and no export at all) is produced. -/
theorem label_count_mismatch_handled
    (nm : String) (content : List Char) (args : Args) (doc : PlotDoc) (msgs : List Msg)
    (labels : List String) (title : String) (scale : PyFloat × PyFloat)
    (al : Option (String × String)) (lp : Option (PyFloat × PyFloat))
    (hload : load content args.restrict_to = .ok (doc, msgs))
    (hlab : args.labels = some labels)
    (hne : labels ≠ [])
    (hmm : labels.length ≠ (chosen_layers doc.layers args.restrict_to).length)
    (hplot : (!args.do_not_plot || args.export_fmt.isSome) = true) :
    plot_method true doc.layers args.restrict_to title scale al lp (some labels) =
      ([.labelCountMismatch], none)
    ∧ main_model true nm content args =
      .ok { printed := msgs ++ [.labelCountMismatch, .plotGenerationFailed],
            csv_written := none, image_saved := none, shown := false } := by
  refine ⟨plot_mismatch_aux _ _ _ _ _ _ _ hne hmm, ?_⟩
  unfold main_model
  rw [hload]
  dsimp only
  rw [hplot, hlab]
  rw [plot_mismatch_aux doc.layers args.restrict_to
    (if truthy_str args.title then args.title.getD "" else doc.title) args.scale
    (some (args.axis_x, args.axis_y)) (some args.legend_position) labels hne hmm]
  simp

/-- Witness: two labels against the three series of a concrete file produce
the handled failure and no image. -/
theorem label_count_mismatch_handled_witness :
    plot_method true doc_abc.layers none "t" (pf 1, pf 1) none none (some ["a", "b"]) =
      ([.labelCountMismatch], none)
    ∧ main_model true "f.agr" file_abc args_two_labels =
      .ok { printed := [.labelCountMismatch, .plotGenerationFailed],
            csv_written := none, image_saved := none, shown := false } :=
  label_count_mismatch_handled "f.agr" file_abc args_two_labels doc_abc [] ["a", "b"]
    "t" (pf 1, pf 1) none none (by decide) rfl (by decide) (by decide) rfl

/-- C7: with scale factors (sx, sy), every point (x, y) of a selected series
is plotted at (sx * x, sy * y); the csv export does not depend on the scale
supplied on the command line at all. -/
theorem scale_applies_to_plot_not_csv
    (layers : List Layer) (restrict_to : Option (List String)) (title : String)
    (sx sy : PyFloat) (al : Option (String × String)) (lp : Option (PyFloat × PyFloat))
    (mpl : Bool) (nm : String) (content : List Char) (args : Args)
    (s1 s2 : PyFloat × PyFloat)
    (hexp : args.export_fmt = some .csv) :
    plot_method true layers restrict_to title (sx, sy) al lp none =
      ([], some
        { calls := (chosen_layers layers restrict_to).map (fun l =>
            { xs := l.data.map (fun p => pf_mul sx p.1)
              ys := l.data.map (fun p => pf_mul sy p.2)
              label := l.name })
          title := title, axes := al, legend_anchor := lp })
    ∧ main_model mpl nm content { args with scale := s1 } =
      main_model mpl nm content { args with scale := s2 } := by
  constructor
  · unfold plot_method
    simp only [truthy_labels]
    simp only [Bool.not_true, Bool.false_and, Bool.and_self, if_false, Bool.false_eq_true,
      ite_false, ite_true, Prod.mk.injEq, Option.some.injEq, PlotResult.mk.injEq,
      and_true, true_and]
    exact enum_map_snd_comp (chosen_layers layers restrict_to)
      (fun l => ({ xs := l.data.map (fun p => pf_mul sx p.1)
                   ys := l.data.map (fun p => pf_mul sy p.2)
                   label := l.name } : PlotCall))
  · obtain ⟨dnp, tit, ax, ay, rt, ef, sc, lpos, lb⟩ := args
    dsimp only at hexp
    subst hexp
    unfold main_model
    dsimp only
    cases hl : load content rt with
    | error e => rfl
    | ok dm =>
      obtain ⟨doc, msgs⟩ := dm
      dsimp only
      simp only [Option.isSome_some, Bool.or_true]
      simp only [if_true]
      cases mpl with
      | false => rfl
      | true =>
        by_cases hcond : (truthy_labels lb &&
            !((lb.getD []).length = (chosen_layers doc.layers rt).length)) = true
        · simp [plot_method, hcond]
        · simp [plot_method, hcond]

/-- Witness: scale (2, 3) plots the point (4, 5) at (8, 15), and the csv
export of a run is unchanged when the scale changes from (2, 3) to (1, 1). -/
theorem scale_applies_to_plot_not_csv_witness :
    plot_method true layers_pt45 none "t" (pf 2, pf 3) none none none =
      ([], some { calls := [{ xs := [pf 8], ys := [pf 15], label := "v" }]
                  title := "t", axes := none, legend_anchor := none })
    ∧ main_model true "f.agr" file_one { args_csv with scale := (pf 2, pf 3) } =
      main_model true "f.agr" file_one { args_csv with scale := (pf 1, pf 1) } :=
  scale_applies_to_plot_not_csv layers_pt45 none "t" (pf 2) (pf 3) none none
    true "f.agr" file_one args_csv (pf 2, pf 3) (pf 1, pf 1) rfl

/-- C6 counterexample: a parseable document may declare two series with the
same legend name; its csv export then has duplicate column headers, and
re-parsing the numeric columns of series 0 yields the points of BOTH series,
not the original single point of series 0, so the round trip fails for it. -/
theorem csv_round_trip_fails_on_duplicate_names :
    load file_same_name none = .ok (doc_same_name, []) ∧
    (chosen_layers doc_same_name.layers none).map Layer.data =
      [[(pf 1, pf 10)], [(pf 2, pf 20)]] ∧
    csv_column_pairs (to_csv doc_same_name.layers none) 0 =
      [(pf 1, pf 10), (pf 2, pf 20)] ∧
    ¬ csv_column_pairs (to_csv doc_same_name.layers none) 0 = [(pf 1, pf 10)] := by
  decide

theorem string_data_append_eq (a b : String) : (a ++ b).data = a.data ++ b.data := by
  cases a
  cases b
  rfl

theorem string_append_x_inj (a b : String) : a ++ ".x" = b ++ ".x" ↔ a = b := by
  constructor
  · intro h
    have hd := congrArg String.data h
    rw [string_data_append_eq, string_data_append_eq] at hd
    have h2 := List.append_cancel_right hd
    cases a
    cases b
    simp_all
  · intro h
    rw [h]

theorem string_append_y_inj (a b : String) : a ++ ".y" = b ++ ".y" ↔ a = b := by
  constructor
  · intro h
    have hd := congrArg String.data h
    rw [string_data_append_eq, string_data_append_eq] at hd
    have h2 := List.append_cancel_right hd
    cases a
    cases b
    simp_all
  · intro h
    rw [h]

theorem string_append_x_ne_y (a b : String) : ¬ a ++ ".x" = b ++ ".y" := by
  intro h
  have hd := congrArg String.data h
  rw [string_data_append_eq, string_data_append_eq] at hd
  have hx : (".x" : String).data = ['.', 'x'] := rfl
  have hy : (".y" : String).data = ['.', 'y'] := rfl
  rw [hx, hy] at hd
  have hr := congrArg List.reverse hd
  simp [List.reverse_append] at hr

theorem string_append_y_ne_x (a b : String) : ¬ a ++ ".y" = b ++ ".x" := by
  intro h
  exact string_append_x_ne_y b a h.symm

theorem csv_headers_x (cs : List Layer) :
    ∀ (i : Nat) (hi : i < cs.length),
      (csv_headers cs)[2 * i]? = some (cs[i].name ++ ".x") := by
  induction cs with
  | nil => intro i hi; exact absurd hi (by simp)
  | cons c t ih =>
    intro i hi
    cases i with
    | zero => rfl
    | succ j =>
      have e1 : 2 * (j + 1) = 2 * j + 1 + 1 := by omega
      have hj : j < t.length := by simpa using Nat.lt_of_succ_lt_succ hi
      rw [e1, show csv_headers (c :: t) =
        (c.name ++ ".x") :: (c.name ++ ".y") :: csv_headers t from rfl,
        List.getElem?_cons_succ, List.getElem?_cons_succ]
      rw [List.getElem_cons_succ]
      exact ih j hj

theorem csv_headers_y (cs : List Layer) :
    ∀ (i : Nat) (hi : i < cs.length),
      (csv_headers cs)[2 * i + 1]? = some (cs[i].name ++ ".y") := by
  induction cs with
  | nil => intro i hi; exact absurd hi (by simp)
  | cons c t ih =>
    intro i hi
    cases i with
    | zero =>
      simp [show csv_headers (c :: t) =
        (c.name ++ ".x") :: (c.name ++ ".y") :: csv_headers t from rfl]
    | succ j =>
      have e1 : 2 * (j + 1) + 1 = 2 * j + 1 + 1 + 1 := by omega
      have hj : j < t.length := by simpa using Nat.lt_of_succ_lt_succ hi
      rw [e1, show csv_headers (c :: t) =
        (c.name ++ ".x") :: (c.name ++ ".y") :: csv_headers t from rfl,
        List.getElem?_cons_succ, List.getElem?_cons_succ]
      rw [List.getElem_cons_succ]
      exact ih j hj

theorem pair_at_row_cells (cs : List Layer) (i : Nat) (hi : i < cs.length)
    (n : String) (p : PyFloat × PyFloat) :
    pair_at i (row_cells (csv_headers cs) n p) =
      if cs[i].name = n then some p else none := by
  unfold pair_at row_cells
  rw [List.getElem?_map, List.getElem?_map, csv_headers_x cs i hi, csv_headers_y cs i hi]
  by_cases he : cs[i].name = n
  · simp [he, string_append_x_inj, string_append_y_inj, string_append_x_ne_y,
      string_append_y_ne_x, Option.join]
  · simp [he, string_append_x_inj, string_append_y_inj, string_append_x_ne_y,
      string_append_y_ne_x, Option.join]

theorem filterMap_flatMap_comm {α β γ : Type} (l : List α) (g : α → List β)
    (f : β → Option γ) :
    (l.flatMap g).filterMap f = l.flatMap (fun a => (g a).filterMap f) := by
  induction l with
  | nil => rfl
  | cons a t ih => simp [List.flatMap_cons, List.filterMap_append, ih]

theorem flatMap_if_name_nil (cs : List Layer) (n : String)
    (hall : ∀ l ∈ cs, ¬ n = l.name) :
    (cs.flatMap (fun l => if n = l.name then l.data else [])) = [] := by
  induction cs with
  | nil => rfl
  | cons c t ih =>
    rw [List.flatMap_cons, if_neg (hall c (by simp)), List.nil_append]
    exact ih (fun l hl => hall l (by simp [hl]))

theorem flatMap_select (cs : List Layer) :
    ∀ (i : Nat) (hi : i < cs.length), ((cs.map Layer.name).Nodup) →
      cs.flatMap (fun l => if cs[i].name = l.name then l.data else []) = cs[i].data := by
  induction cs with
  | nil => intro i hi _; exact absurd hi (by simp)
  | cons c t ih =>
    intro i hi hnd
    rw [List.map_cons, List.nodup_cons] at hnd
    rw [List.flatMap_cons]
    cases i with
    | zero =>
      simp only [List.getElem_cons_zero, if_true]
      have hall : ∀ l ∈ t, ¬ c.name = l.name := by
        intro l hl heq
        exact hnd.1 (heq ▸ List.mem_map_of_mem Layer.name hl)
      rw [flatMap_if_name_nil t _ hall, List.append_nil]
    | succ j =>
      have hj : j < t.length := by simpa using Nat.lt_of_succ_lt_succ hi
      simp only [List.getElem_cons_succ]
      have hne : ¬ t[j].name = c.name := by
        intro heq
        have hm : t[j].name ∈ t.map Layer.name :=
          List.mem_map_of_mem Layer.name (t.getElem_mem hj)
        rw [heq] at hm
        exact hnd.1 hm
      rw [if_neg hne, List.nil_append]
      exact ih j hj hnd.2

/-- C6 (amended): provided the selected series have pairwise distinct names,
re-parsing the numeric column pair of each selected series from the exported
csv reproduces exactly that series' (x, y) pairs, in the original order. -/
theorem csv_round_trip_distinct_names (layers : List Layer)
    (restrict_to : Option (List String)) (i : Nat)
    (hnd : ((chosen_layers layers restrict_to).map Layer.name).Nodup)
    (hi : i < (chosen_layers layers restrict_to).length) :
    csv_column_pairs (to_csv layers restrict_to) i =
      (chosen_layers layers restrict_to)[i].data := by
  unfold csv_column_pairs to_csv
  dsimp only
  rw [filterMap_flatMap_comm]
  have hrow : ∀ (l : Layer),
      (l.data.map (fun p =>
        row_cells (csv_headers (chosen_layers layers restrict_to)) l.name p)).filterMap
          (pair_at i) =
      if (chosen_layers layers restrict_to)[i].name = l.name then l.data else [] := by
    intro l
    rw [List.filterMap_map]
    have hfun : (pair_at i ∘ fun p =>
        row_cells (csv_headers (chosen_layers layers restrict_to)) l.name p) =
        fun p => if (chosen_layers layers restrict_to)[i].name = l.name
                 then some p else none := by
      funext p
      simp only [Function.comp]
      exact pair_at_row_cells (chosen_layers layers restrict_to) i hi l.name p
    rw [hfun]
    by_cases hc : (chosen_layers layers restrict_to)[i].name = l.name
    · simp only [hc, if_true]
      exact List.filterMap_some l.data
    · simp [hc]
  simp only [hrow]
  exact flatMap_select (chosen_layers layers restrict_to) i hi hnd

/-- Witness: with two distinctly named series, re-parsing series 0's columns
from the csv gives back exactly its original single point. -/
theorem csv_round_trip_distinct_names_witness :
    csv_column_pairs (to_csv [{ name := "a", data := [(pf 1, pf 2)] },
                              { name := "b", data := [(pf 3, pf 4)] }] none) 0 =
      [(pf 1, pf 2)] :=
  csv_round_trip_distinct_names
    [{ name := "a", data := [(pf 1, pf 2)] }, { name := "b", data := [(pf 3, pf 4)] }]
    none 0 (by decide) (by decide)
